import Mathlib

/-!
Verification of the `tmeire/go-sitemap` streaming sitemap parser
(`sitemap.go`, function `ParseReaderOptimized` and the per-field
decoders `Frequency.UnmarshalXML`, `TimeISO3339.UnmarshalXML`,
`BoundedFloat64.UnmarshalXML`).

The Go code is shallowly embedded: bytes are `Nat` values (0..255),
the 4096-byte working buffer is a total function `Nat → Nat` together
with the fixed physical size, the input stream is a list of chunks
(each chunk a length plus an index function, mirroring one `Read`
call), and every fallible operation returns a `Res` value whose
`crash` constructor stands for a Go runtime panic (out-of-bounds
index or slice, nil-pointer dereference) and whose `fatal`
constructor carries the structured content of the `fmt.Errorf`
returns (line, column, error kind).  Loops become fuel-indexed
structural recursions; the fuel bounds are generous enough that the
fuel-exhausted branch (also `crash`) is never taken on the inputs
evaluated below.

Floating point is modelled symbolically: a parsed priority is either
a finite rational, `+Inf`, `-Inf`, or `NaN`, with Go's comparison
semantics (`NaN < 0`, `NaN > 1` both false).  `strconv.ParseFloat`
is modelled on the decimal/`inf`/`nan` fragment that the sitemap
schema exercises; see the comment on `parseFloatModel`.
-/

set_option maxRecDepth 100000

namespace GoSitemap

/-- Bytes of an ASCII string literal, as natural numbers. -/
def bytesOf (s : String) : List Nat := s.toList.map Char.toNat

/-! ## Frequency (source: `Frequency`, `Frequency.String`,
    `Frequency.UnmarshalXML`) -/

/-- The `Frequency` enumeration; `uknown` keeps the source's spelling of
the zero value `UKNOWN`. -/
inductive Frequency where
  | uknown | always | hourly | daily | weekly | monthly | yearly | never
deriving DecidableEq, Repr

/-- The `Frequency.String` method: token text of each enumeration value. -/
def Frequency.token : Frequency → String
  | .always => "always"
  | .hourly => "hourly"
  | .daily => "daily"
  | .weekly => "weekly"
  | .monthly => "monthly"
  | .yearly => "yearly"
  | .never => "never"
  | .uknown => "unknown"

/-- The changefreq coercion performed inline by `ParseReaderOptimized`
(the `switch string(bs[contentStart:i])` at the `</changefreq>` close):
exact match of the captured bytes against the seven known tokens,
anything else yields `UKNOWN`. -/
def coerceChangefreq (s : List Nat) : Frequency :=
  if s = bytesOf "always" then .always
  else if s = bytesOf "hourly" then .hourly
  else if s = bytesOf "daily" then .daily
  else if s = bytesOf "weekly" then .weekly
  else if s = bytesOf "monthly" then .monthly
  else if s = bytesOf "yearly" then .yearly
  else if s = bytesOf "never" then .never
  else .uknown

/-- The `switch v` of `Frequency.UnmarshalXML` (the fallback path's
per-field decoder), applied to the already-decoded element text. -/
def frequencyUnmarshalXML (s : List Nat) : Frequency :=
  if s = bytesOf "always" then .always
  else if s = bytesOf "hourly" then .hourly
  else if s = bytesOf "daily" then .daily
  else if s = bytesOf "weekly" then .weekly
  else if s = bytesOf "monthly" then .monthly
  else if s = bytesOf "yearly" then .yearly
  else if s = bytesOf "never" then .never
  else .uknown

/-- The seven recognized changefreq tokens, as byte lists. -/
def knownFreqTokens : List (List Nat) :=
  [bytesOf "always", bytesOf "hourly", bytesOf "daily", bytesOf "weekly",
   bytesOf "monthly", bytesOf "yearly", bytesOf "never"]

/-! ## Symbolic Go float64 and the priority pipeline
    (source: the `</priority>` branch of `ParseReaderOptimized` and
    `BoundedFloat64.UnmarshalXML`) -/

/-- A Go `float64` value, abstracted: finite values are exact rationals
(the round-to-nearest-double step of `strconv.ParseFloat` is abstracted
away; it does not interact with the clamping logic), plus the two
infinities and `NaN`. -/
inductive GoFloat where
  | finite (q : ℚ)
  | posInf
  | negInf
  | nan
deriving DecidableEq, Repr

/-- Go's `f < 0.` comparison: false for `NaN` (all comparisons with
`NaN` are false in Go). -/
def GoFloat.ltZero : GoFloat → Bool
  | .finite q => decide (q < 0)
  | .negInf => true
  | .posInf => false
  | .nan => false

/-- Go's `f > 1.` comparison: false for `NaN`. -/
def GoFloat.gtOne : GoFloat → Bool
  | .finite q => decide (1 < q)
  | .negInf => false
  | .posInf => true
  | .nan => false

/-- Go's `math.IsNaN`. -/
def GoFloat.isNaN : GoFloat → Bool
  | .nan => true
  | _ => false

/-- Decidable equality for `ParseFloat` outcomes. -/
instance : DecidableEq (Except Unit GoFloat) := fun a b =>
  match a, b with
  | .error e, .error e' =>
    if h : e = e' then .isTrue (by rw [h]) else .isFalse (fun c => by cases c; exact h rfl)
  | .ok x, .ok y =>
    if h : x = y then .isTrue (by rw [h]) else .isFalse (fun c => by cases c; exact h rfl)
  | .error _, .ok _ => .isFalse (fun c => by cases c)
  | .ok _, .error _ => .isFalse (fun c => by cases c)

/-- The literal `.5` of the source (written via `mkRat` so that it
evaluates by kernel reduction). -/
def half : ℚ := mkRat 1 2

/-- The inline priority coercion of `ParseReaderOptimized` applied to a
`strconv.ParseFloat` outcome, in the source's order: substitute `0.5`
on parse error, clamp below `0`, clamp above `1`, then replace `NaN`
by `0.5`. -/
def clampPipeline (r : Except Unit GoFloat) : GoFloat :=
  let f := match r with
    | .error _ => GoFloat.finite half
    | .ok g => g
  let f := if f.ltZero then GoFloat.finite 0 else f
  let f := if f.gtOne then GoFloat.finite 1 else f
  if f.isNaN then GoFloat.finite half else f

/-- The same pipeline in the order the spec describes it (`parse` →
substitute `0.5` on failure → `NaN → 0.5` → clamp to `[0,1]`), with the
`NaN` check before the clamps. -/
def clampPipelineNaNFirst (r : Except Unit GoFloat) : GoFloat :=
  let f := match r with
    | .error _ => GoFloat.finite half
    | .ok g => g
  let f := if f.isNaN then GoFloat.finite half else f
  let f := if f.ltZero then GoFloat.finite 0 else f
  if f.gtOne then GoFloat.finite 1 else f

/-! ## Model of `strconv.ParseFloat(s, 64)`

Modelled from the Go standard library on the fragment relevant here:
optional sign; `inf`/`infinity` (case-insensitive, with or without
sign); `nan` (case-insensitive, no sign, per `strconv`'s `special`);
decimal mantissa with optional fraction part and optional decimal
exponent, requiring at least one digit and full consumption of the
input. Values whose magnitude falls outside the double range are
mapped to a parse error, matching the fact that `ParseFloat` then
returns a non-nil `ErrRange` error, which the sitemap code treats
exactly like a syntax error (`if err != nil { f = .5 }`); the precise
round-to-nearest boundary of that range is approximated by the clean
powers `2^1024` and `2^(-1075)`.  Hexadecimal floats and underscore
digit separators are not modelled.  Finite values are kept as exact
rationals. -/

/-- ASCII decimal digit test. -/
def isDig (b : Nat) : Bool := 48 ≤ b && b ≤ 57

/-- Lower-case an ASCII byte. -/
def lowerByte (b : Nat) : Nat := if 65 ≤ b && b ≤ 90 then b + 32 else b

/-- Case-insensitive whole-string match against a lowercase pattern. -/
def matchCI (s t : List Nat) : Bool := s.map lowerByte = t

/-- The `special` cases of `strconv.ParseFloat`: signed/unsigned
`inf`/`infinity` and unsigned `nan`, case-insensitively, consuming the
whole string. -/
def parseSpecial (s : List Nat) : Option GoFloat :=
  match s with
  | [] => none
  | b :: rest =>
    if b = 43 then
      if matchCI rest (bytesOf "inf") || matchCI rest (bytesOf "infinity") then
        some .posInf
      else none
    else if b = 45 then
      if matchCI rest (bytesOf "inf") || matchCI rest (bytesOf "infinity") then
        some .negInf
      else none
    else if matchCI s (bytesOf "inf") || matchCI s (bytesOf "infinity") then
      some .posInf
    else if matchCI s (bytesOf "nan") then
      some .nan
    else none

/-- Value of a digit run (most significant first). -/
def digitsToNat (ds : List Nat) : Nat := ds.foldl (fun a d => a * 10 + (d - 48)) 0

/-- Mantissa of a decimal float literal: integer digits, optional `.`
and fraction digits; at least one digit overall.  Returns the combined
digit value, the number of fraction digits, and the unconsumed rest. -/
def parseMantissa (s : List Nat) : Option (Nat × Nat × List Nat) :=
  let ip := s.takeWhile isDig
  let r1 := s.dropWhile isDig
  match r1 with
  | 46 :: r2 =>
    let fp := r2.takeWhile isDig
    let r3 := r2.dropWhile isDig
    if ip = [] && fp = [] then none
    else some (digitsToNat (ip ++ fp), fp.length, r3)
  | _ => if ip = [] then none else some (digitsToNat ip, 0, r1)

/-- Optional decimal exponent `e`/`E`, optional sign, at least one
digit.  Absent exponent yields exponent `0`. -/
def parseExp (s : List Nat) : Option (Int × List Nat) :=
  match s with
  | [] => some (0, [])
  | b :: rest =>
    if b = 101 || b = 69 then
      let (neg, r1) : Bool × List Nat :=
        match rest with
        | 43 :: r => (false, r)
        | 45 :: r => (true, r)
        | _ => (false, rest)
      let ds := r1.takeWhile isDig
      let r2 := r1.dropWhile isDig
      if ds = [] then none
      else some (if neg then -(digitsToNat ds : Int) else (digitsToNat ds : Int), r2)
    else some (0, b :: rest)

/-- Model of `strconv.ParseFloat(s, 64)`; `Except.error ()` stands for
any non-nil returned error (syntax or range).  The decimal value
`±m·10^(e-frac)` is built as a fraction of machine naturals and turned
into a rational with `mkRat`, so that it evaluates by kernel
reduction. -/
def parseFloatModel (s : List Nat) : Except Unit GoFloat :=
  match parseSpecial s with
  | some g => .ok g
  | none =>
    let (neg, s1) : Bool × List Nat :=
      match s with
      | 43 :: r => (false, r)
      | 45 :: r => (true, r)
      | _ => (false, s)
    match parseMantissa s1 with
    | none => .error ()
    | some (m, frac, r1) =>
      match parseExp r1 with
      | none => .error ()
      | some (e, r2) =>
        if r2 = [] then
          if m = 0 then .ok (.finite 0)
          else
            let d : Int := e - (frac : Int)
            let num : Nat := if 0 ≤ d then m * 10 ^ d.toNat else m
            let den : Nat := if 0 ≤ d then 1 else 10 ^ (-d).toNat
            if 2 ^ 1024 * den ≤ num then .error ()
            else if num * 2 ^ 1075 < den then .error ()
            else .ok (.finite (if neg then mkRat (-(num : Int)) den else mkRat num den))
        else .error ()

/-- The inline priority coercion of `ParseReaderOptimized` on a captured
text span: `strconv.ParseFloat` followed by the substitute/clamp/NaN
sequence of the source. -/
def coercePriority (s : List Nat) : GoFloat := clampPipeline (parseFloatModel s)

/-- The body of `BoundedFloat64.UnmarshalXML` (the fallback path's
per-field decoder) applied to the already-decoded element text: the
same `ParseFloat`/substitute/clamp/NaN sequence, written at its own
source site. -/
def boundedFloat64UnmarshalXML (s : List Nat) : GoFloat :=
  let f := match parseFloatModel s with
    | .error _ => GoFloat.finite half
    | .ok g => g
  let f := if f.ltZero then GoFloat.finite 0 else f
  let f := if f.gtOne then GoFloat.finite 1 else f
  if f.isNaN then GoFloat.finite half else f

/-! ## Model of `time.Parse("2006-01-02T15:04Z", s)`

Modelled from the Go standard library's `time.Parse` on this fixed
layout.  The layout splits into the standard chunks `2006` (exactly
four digits), literal `-`, `01` (exactly two digits), literal `-`,
`02` (exactly two digits), literal `T`, `15` (a NON-fixed numeric
field: Go's `getnum(value, false)` accepts one or two digits here),
literal `:`, `04` (exactly two digits), and a bare `Z`, which is not
followed by any of `07`/`0700`/`07:00`... and is therefore matched as
a literal byte.  The whole value must be consumed.  After parsing,
`time.Parse` range-checks month (1..12), day (1..days-in-month with
the Gregorian leap rule), hour (0..23) and minute (0..59). -/

/-- A parsed timestamp (minute precision, UTC). -/
structure Timestamp where
  year : Nat
  month : Nat
  day : Nat
  hour : Nat
  minute : Nat
deriving DecidableEq, Repr

/-- The zero value of Go's `time.Time` (January 1, year 1, 00:00). -/
def zeroTime : Timestamp := ⟨1, 1, 1, 0, 0⟩

/-- Gregorian leap-year rule (Go's `isLeap`). -/
def isLeap (y : Nat) : Bool := y % 4 = 0 && (y % 100 ≠ 0 || y % 400 = 0)

/-- Days in a month (Go's `daysIn`). -/
def daysIn (m y : Nat) : Nat :=
  if m = 2 then (if isLeap y then 29 else 28)
  else if m = 4 || m = 6 || m = 9 || m = 11 then 30
  else 31

/-- Fixed two-digit numeric field (Go's `getnum` with `fixed = true`). -/
def getnum2 : List Nat → Option (Nat × List Nat)
  | a :: b :: rest =>
    if isDig a && isDig b then some ((a - 48) * 10 + (b - 48), rest) else none
  | _ => none

/-- One-or-two-digit numeric field (Go's `getnum` with `fixed = false`). -/
def getnum12 : List Nat → Option (Nat × List Nat)
  | [] => none
  | [a] => if isDig a then some (a - 48, []) else none
  | a :: b :: rest =>
    if isDig a then
      if isDig b then some ((a - 48) * 10 + (b - 48), rest)
      else some (a - 48, b :: rest)
    else none

/-- Exactly four leading digits (Go's `stdLongYear`). -/
def getYear4 : List Nat → Option (Nat × List Nat)
  | a :: b :: c :: d :: rest =>
    if isDig a && isDig b && isDig c && isDig d then
      some ((((a - 48) * 10 + (b - 48)) * 10 + (c - 48)) * 10 + (d - 48), rest)
    else none
  | _ => none

/-- Model of `time.Parse(formatISO3339NoMinutes, s)`: `none` is a
non-nil error. -/
def timeParseModel (s : List Nat) : Option Timestamp := do
  let (y, r1) ← getYear4 s
  match r1 with
  | 45 :: r2 => do
    let (mo, r3) ← getnum2 r2
    match r3 with
    | 45 :: r4 => do
      let (d, r5) ← getnum2 r4
      match r5 with
      | 84 :: r6 => do
        let (h, r7) ← getnum12 r6
        match r7 with
        | 58 :: r8 => do
          let (mi, r9) ← getnum2 r8
          match r9 with
          | [90] =>
            if 1 ≤ mo && mo ≤ 12 && 1 ≤ d && d ≤ daysIn mo y && h ≤ 23 && mi ≤ 59 then
              some ⟨y, mo, d, h, mi⟩
            else none
          | _ => none
        | _ => none
      | _ => none
    | _ => none
  | _ => none

/-! ## Data model of the result
    (source: `URL`, `URLSet`, `SiteMap`, `SiteMapOrURLSet`) -/

/-- One URL-set entry (source struct `URL`; `XMLName` is meta-data of
the fallback decoder and carries no content).  The defaults are the Go
zero values of the respective field types: empty string, zero
`time.Time`, `UKNOWN`, nil pointer. -/
structure URL where
  Loc : List Nat := []
  Lastmod : Timestamp := zeroTime
  Changefreq : Frequency := .uknown
  Priority : Option GoFloat := none
deriving DecidableEq, Repr

/-- One sitemap-index entry (source struct `SiteMap`); never
constructed by the optimized path. -/
structure SiteMap where
  Loc : List Nat := []
  Lastmod : Timestamp := zeroTime
deriving DecidableEq, Repr

/-- The result union (source struct `SiteMapOrURLSet`). -/
structure SiteMapOrURLSet where
  Maps : List SiteMap := []
  URLs : List URL := []
deriving DecidableEq, Repr

/-! ## The streaming scanner (source: `ParseReaderOptimized`) -/

/-- The `parseLevel` enumeration (source constants `root` … `changefreq`). -/
inductive parseLevel where
  | root | urlset | url | loc | lastmod | priority | changefreq
deriving DecidableEq, Repr

/-- Source constant `bufferSize`. -/
def bufferSize : Nat := 4096

/-- Source constant `breakoutThreshold`. -/
def breakoutThreshold : Nat := 75

/-- Structured content of the `fmt.Errorf` returns of
`ParseReaderOptimized`. -/
inductive ErrKind where
  | tag
  | chr (b : Nat)
  | lastmodVal (s : List Nat)
deriving DecidableEq, Repr

/-- A fatal parse error with its reported 1-based line and column.
The column is an `Int` because the `lastmod` error reports
`currentCharacter - i + contentStart`, which can go negative. -/
structure ErrInfo where
  line : Nat
  char : Int
  kind : ErrKind
deriving DecidableEq, Repr

/-- Outcome of an embedded computation: a value, a fatal parse error
(a non-nil `error` return), or a Go runtime panic / exhausted fuel. -/
inductive Res (α : Type) where
  | ok (a : α)
  | fatal (e : ErrInfo)
  | crash
deriving DecidableEq, Repr

/-- Sequencing on `Res`. -/
def Res.bind {α β : Type} : Res α → (α → Res β) → Res β
  | .ok a, f => f a
  | .fatal e, _ => .fatal e
  | .crash, _ => .crash

/-- The working buffer `bs`: the physical 4096 bytes as a total index
function.  Go zero-initializes it, and bytes beyond the count returned
by the last `Read` keep whatever was there before (stale bytes) — the
scanner does read them on some inputs. -/
structure Buffer where
  data : Nat → Nat

/-- Read `bs[i]`: reading any physical index is defined (possibly stale);
an index at or past the physical length panics. -/
def Buffer.read (b : Buffer) (i : Nat) : Res Nat :=
  if i < bufferSize then .ok (b.data i) else .crash

/-- Slice `bs[lo:hi]` as a byte list: Go requires `lo ≤ hi ≤ len(bs)`,
otherwise the slice panics. -/
def Buffer.range (b : Buffer) (lo hi : Nat) : Res (List Nat) :=
  if lo ≤ hi && hi ≤ bufferSize then
    .ok ((List.range (hi - lo)).map fun k => b.data (lo + k))
  else .crash

/-- Slice `bs[contentStart:i]` where `contentStart` is a Go `int` that may be
negative or past `i`; those cases panic. -/
def Buffer.rangeFrom (b : Buffer) (cs : Int) (hi : Nat) : Res (List Nat) :=
  if 0 ≤ cs && cs ≤ (hi : Int) then b.range cs.toNat hi else .crash

/-- Shift `copy(bs, bs[rp:n])`: move the unconsumed suffix to the front. -/
def Buffer.shift (b : Buffer) (rp n : Nat) : Buffer :=
  ⟨fun i => if i < n - rp then b.data (rp + i) else b.data i⟩

/-- Writing `len` freshly read bytes at `offset`. -/
def Buffer.write (b : Buffer) (offset len : Nat) (f : Nat → Nat) : Buffer :=
  ⟨fun i => if offset ≤ i && i < offset + len then f (i - offset) else b.data i⟩

/-- The mutable locals of `ParseReaderOptimized` that survive the scan
of one buffer window (`currentURLSet` is represented by its `Urls`
slice; its `XMLName` is never touched by the scanner). -/
structure ScanState where
  currentParseLevel : parseLevel := .root
  contentStart : Int := -1
  urls : List URL := []
  currentURL : Option URL := none
  currentLine : Nat := 1
  currentCharacter : Nat := 1
deriving DecidableEq, Repr

/-- Field update on closing a leaf element (the four `</loc>`,
`</changefreq>`, `</priority>`, `</lastmod>` branches of
`ParseReaderOptimized`, restricted to what they do with the captured
text).  `line`/`col` feed the `lastmod` error; the structural levels
never reach this function. -/
def applyLeafClose (lvl : parseLevel) (text : List Nat) (line : Nat) (col : Int)
    (u : URL) : Res URL :=
  match lvl with
  | .loc => .ok { u with Loc := text }
  | .changefreq => .ok { u with Changefreq := coerceChangefreq text }
  | .priority => .ok { u with Priority := some (coercePriority text) }
  | .lastmod =>
    match timeParseModel text with
    | none => .fatal ⟨line, col, .lastmodVal text⟩
    | some t => .ok { u with Lastmod := t }
  | _ => .crash

/-- Scan of a `<?...?>` processing instruction at `Root`: the loop
`for j := i+2; bs[j] != 63 && bs[j+1] != 62; j++`, with Go's
short-circuit evaluation; returns the final `j`.  Fuel-indexed: the
reads panic before `j` can exceed the buffer, so fuel `4097` is never
exhausted. -/
def piScan (buf : Buffer) : Nat → Nat → Res Nat
  | 0, _ => .crash
  | fuel + 1, j =>
    (buf.read j).bind fun bj =>
    if bj = 63 then .ok j
    else
      (buf.read (j + 1)).bind fun bj1 =>
      if bj1 = 62 then .ok j
      else piScan buf fuel (j + 1)

/-- Outcome of classifying one `<` tag: a fatal error, a panic, or the
next state together with the value of `i` after the branch's `i += k`. -/
inductive Trans where
  | fatalT (e : ErrInfo)
  | crashT
  | next (st : ScanState) (i : Nat)

/-- Shared shape of the four leaf-close branches: verify the closing
tag bytes `bs[i+1:hi]`, capture `bs[contentStart:i]`, update the
current record, return to `url` level and jump `i` by `jump`.  A nil
`currentURL` dereference panics. -/
def leafClose (buf : Buffer) (i : Nat) (st : ScanState) (closeTag : List Nat)
    (hi jump : Nat) (lvl : parseLevel) : Trans :=
  match buf.range (i + 1) hi with
  | .fatal e => .fatalT e
  | .crash => .crashT
  | .ok t =>
    if t = closeTag then
      match buf.rangeFrom st.contentStart i with
      | .fatal e => .fatalT e
      | .crash => .crashT
      | .ok text =>
        match st.currentURL with
        | none => .crashT
        | some u =>
          match applyLeafClose lvl text st.currentLine
              ((st.currentCharacter : Int) - (i : Int) + st.contentStart) u with
          | .fatal e => .fatalT e
          | .crash => .crashT
          | .ok u' =>
            .next { st with currentURL := some u', currentParseLevel := .url } (i + jump)
    else .fatalT ⟨st.currentLine, st.currentCharacter, .tag⟩

/-- Classification of the tag starting at `bs[i] = '<'` (the
`switch currentParseLevel` of the source, reached when the early-refill
guard did not fire). -/
def handleTag (buf : Buffer) (i : Nat) (st : ScanState) : Trans :=
  match st.currentParseLevel with
  | .root =>
    match buf.read (i + 1) with
    | .fatal e => .fatalT e
    | .crash => .crashT
    | .ok b1 =>
      if b1 = 63 then
        match piScan buf 4097 (i + 2) with
        | .fatal e => .fatalT e
        | .crash => .crashT
        | .ok j => .next st (j + 1)
      else
        match buf.range (i + 1) (i + 8) with
        | .fatal e => .fatalT e
        | .crash => .crashT
        | .ok t =>
          if t = bytesOf "urlset>" then
            .next { st with urls := [], currentParseLevel := .urlset } (i + 7)
          else .fatalT ⟨st.currentLine, st.currentCharacter, .tag⟩
  | .urlset =>
    match buf.range (i + 1) (i + 5) with
    | .fatal e => .fatalT e
    | .crash => .crashT
    | .ok t =>
      if t = bytesOf "url>" then
        .next { st with currentURL := some {}, currentParseLevel := .url } (i + 4)
      else
        match buf.range (i + 1) (i + 9) with
        | .fatal e => .fatalT e
        | .crash => .crashT
        | .ok t2 =>
          if t2 = bytesOf "/urlset>" then
            .next { st with currentParseLevel := .root } (i + 8)
          else .fatalT ⟨st.currentLine, st.currentCharacter, .tag⟩
  | .url =>
    match buf.read (i + 2) with
    | .fatal e => .fatalT e
    | .crash => .crashT
    | .ok b2 =>
      if b2 = 111 then
        match buf.range (i + 1) (i + 5) with
        | .fatal e => .fatalT e
        | .crash => .crashT
        | .ok t =>
          if t = bytesOf "loc>" then
            .next { st with contentStart := ((i + 5 : Nat) : Int),
                            currentParseLevel := .loc } (i + 4)
          else .fatalT ⟨st.currentLine, st.currentCharacter, .tag⟩
      else if b2 = 97 then
        match buf.range (i + 1) (i + 9) with
        | .fatal e => .fatalT e
        | .crash => .crashT
        | .ok t =>
          if t = bytesOf "lastmod>" then
            .next { st with contentStart := ((i + 9 : Nat) : Int),
                            currentParseLevel := .lastmod } (i + 8)
          else .fatalT ⟨st.currentLine, st.currentCharacter, .tag⟩
      else if b2 = 114 then
        match buf.range (i + 1) (i + 10) with
        | .fatal e => .fatalT e
        | .crash => .crashT
        | .ok t =>
          if t = bytesOf "priority>" then
            .next { st with contentStart := ((i + 10 : Nat) : Int),
                            currentParseLevel := .priority } (i + 9)
          else .fatalT ⟨st.currentLine, st.currentCharacter, .tag⟩
      else if b2 = 104 then
        match buf.range (i + 1) (i + 12) with
        | .fatal e => .fatalT e
        | .crash => .crashT
        | .ok t =>
          if t = bytesOf "changefreq>" then
            .next { st with contentStart := ((i + 12 : Nat) : Int),
                            currentParseLevel := .changefreq } (i + 11)
          else .fatalT ⟨st.currentLine, st.currentCharacter, .tag⟩
      else if b2 = 117 then
        match buf.range (i + 1) (i + 6) with
        | .fatal e => .fatalT e
        | .crash => .crashT
        | .ok t =>
          if t = bytesOf "/url>" then
            match st.currentURL with
            | none => .crashT
            | some u =>
              .next { st with urls := st.urls ++ [u], currentURL := none,
                              currentParseLevel := .urlset } (i + 5)
          else .fatalT ⟨st.currentLine, st.currentCharacter, .tag⟩
      else .fatalT ⟨st.currentLine, st.currentCharacter, .tag⟩
  | .loc => leafClose buf i st (bytesOf "/loc>") (i + 6) 5 .loc
  | .changefreq => leafClose buf i st (bytesOf "/changefreq>") (i + 13) 12 .changefreq
  | .priority => leafClose buf i st (bytesOf "/priority>") (i + 11) 10 .priority
  | .lastmod => leafClose buf i st (bytesOf "/lastmod>") (i + 10) 9 .lastmod

/-- The inner `for i := 0; i < n; i++` loop over one buffer window.
Returns the state at loop exit together with `resetPosition` (`some i`
when the early-refill guard broke out of the loop).  Whitespace other
than newline falls through without touching the counters; a newline
bumps the line and resets the column; any tag or content byte that
reaches the end of an iteration bumps the column once.  Fuel-indexed;
`i` grows by at least one per step, so fuel `n + 1` is never
exhausted. -/
def scanStep (buf : Buffer) (n : Nat) : Nat → Nat → ScanState → Res (ScanState × Option Nat)
  | 0, _, _ => .crash
  | fuel + 1, i, st =>
    if i < n then
      (buf.read i).bind fun b =>
      if b = 10 then
        scanStep buf n fuel (i + 1)
          { st with currentLine := st.currentLine + 1, currentCharacter := 1 }
      else if b = 13 || b = 9 || b = 32 then
        scanStep buf n fuel (i + 1) st
      else if b = 60 then
        (if i > n * breakoutThreshold / 100 then
           (buf.read (i + 1)).bind fun b1 => Res.ok (decide (b1 ≠ 47))
         else Res.ok false).bind fun hit =>
        if hit then .ok (st, some i)
        else
          match handleTag buf i st with
          | .fatalT e => .fatal e
          | .crashT => .crash
          | .next st' i' =>
            scanStep buf n fuel (i' + 1)
              { st' with currentCharacter := st'.currentCharacter + 1 }
      else
        match st.currentParseLevel with
        | .root | .urlset | .url =>
          .fatal ⟨st.currentLine, st.currentCharacter, .chr b⟩
        | _ =>
          scanStep buf n fuel (i + 1)
            { st with currentCharacter := st.currentCharacter + 1 }
    else .ok (st, none)

/-- One `Read` call: a pending chunk is a length plus an index
function; `Read` delivers at most `space` bytes of the head chunk and
keeps the rest pending.  An empty pending list is `io.EOF`. -/
structure Chunk where
  len : Nat
  bytes : Nat → Nat

/-- One `content.Read(p)` call with `space = len(p)`: `none` is `io.EOF`. -/
def readStep : List Chunk → Nat → Option (Nat × (Nat → Nat) × List Chunk)
  | [], _ => none
  | c :: rest, space =>
    if c.len ≤ space then some (c.len, c.bytes, rest)
    else some (space, c.bytes, ⟨c.len - space, fun j => c.bytes (space + j)⟩ :: rest)

/-- Fuel bound for the outer loop: total pending bytes plus chunk
count plus one; every loop iteration consumes at least one byte or one
chunk of the stream. -/
def readerFuel (cs : List Chunk) : Nat := cs.foldr (fun c a => c.len + 1 + a) 1

/-- The outer `for err == nil` loop: scan the current window, then
preserve the suffix from `resetPosition` (if set), refill, and repeat;
on `io.EOF` return the accumulated URL slice — regardless of the
current parse level or of a pending preserved suffix. -/
def drive (buf : Buffer) (n : Nat) (st : ScanState) : Nat → List Chunk → Res (List URL)
  | 0, _ => .crash
  | fuelO + 1, reader =>
    match scanStep buf n (n + 1) 0 st with
    | .fatal e => .fatal e
    | .crash => .crash
    | .ok (st', rp) =>
      let offset := match rp with
        | some r => n - r
        | none => 0
      let buf' := match rp with
        | some r => buf.shift r n
        | none => buf
      match readStep reader (bufferSize - offset) with
      | none => .ok st'.urls
      | some (k, f, reader') =>
        drive (buf'.write offset k f) (k + offset) st' fuelO reader'

/-- Function `ParseReaderOptimized`, over a stream presented as a list of read
chunks.  The zero-initialized buffer receives the first `Read` before
the loop; the single success exit wraps the accumulated URL slice in
`SiteMapOrURLSet{URLs: …}` with `Maps` nil. -/
def ParseReaderOptimized (chunks : List Chunk) : Res SiteMapOrURLSet :=
  match readStep chunks bufferSize with
  | none => .ok { Maps := [], URLs := [] }
  | some (k, f, rest) =>
    match drive (Buffer.write ⟨fun _ => 0⟩ 0 k f) k {} (readerFuel chunks) rest with
    | .ok us => .ok { Maps := [], URLs := us }
    | .fatal e => .fatal e
    | .crash => .crash

/-- A whole ASCII string as one read chunk. -/
def chunkOfString (s : String) : Chunk := ⟨s.length, fun i => (bytesOf s).getD i 0⟩

/-- An ASCII string delivered one byte per read. -/
def oneByteChunks (s : String) : List Chunk :=
  (bytesOf s).map fun b => ⟨1, fun _ => b⟩

/-! ## Claims -/

/-- C2: for every captured priority text span, the output priority
equals the spec's pipeline `parse → {0.5 on failure} → {NaN → 0.5} →
{clamp to [0,1]}`; the source's order (clamps first, `NaN` check last)
agrees with the spec's order on every parse outcome; finite in-range
values pass through exactly, values below `0` clamp to `0`, above `1`
to `1`, `+Inf` to `1`, `-Inf` to `0`, and parse failure or `NaN` yield
`0.5`; and the scanner stores exactly this value in the record. -/
theorem c2_priority_pipeline :
    (∀ r : Except Unit GoFloat, clampPipeline r = clampPipelineNaNFirst r) ∧
    (∀ s : List Nat, coercePriority s = clampPipelineNaNFirst (parseFloatModel s)) ∧
    (∀ q : ℚ, 0 ≤ q → q ≤ 1 → clampPipeline (.ok (.finite q)) = .finite q) ∧
    (∀ q : ℚ, q < 0 → clampPipeline (.ok (.finite q)) = .finite 0) ∧
    (∀ q : ℚ, 1 < q → clampPipeline (.ok (.finite q)) = .finite 1) ∧
    clampPipeline (.ok .posInf) = .finite 1 ∧
    clampPipeline (.ok .negInf) = .finite 0 ∧
    clampPipeline (.ok .nan) = .finite half ∧
    clampPipeline (.error ()) = .finite half ∧
    (∀ (text : List Nat) (line : Nat) (col : Int) (u : URL),
      applyLeafClose .priority text line col u =
        .ok { u with Priority := some (clampPipelineNaNFirst (parseFloatModel text)) }) := by
  have horder : ∀ r : Except Unit GoFloat, clampPipeline r = clampPipelineNaNFirst r := by
    intro r
    cases r with
    | error u => cases u; decide
    | ok g =>
      cases g with
      | finite q =>
        simp only [clampPipeline, clampPipelineNaNFirst, GoFloat.ltZero, GoFloat.gtOne,
          GoFloat.isNaN]
        split_ifs <;> simp_all [GoFloat.isNaN, GoFloat.gtOne, GoFloat.ltZero]
      | posInf => decide
      | negInf => decide
      | nan => decide
  refine ⟨horder, fun s => horder (parseFloatModel s), ?_, ?_, ?_,
    by decide, by decide, by decide, by decide, ?_⟩
  · intro q h0 h1
    simp [clampPipeline, GoFloat.ltZero, GoFloat.gtOne, GoFloat.isNaN,
      not_lt.mpr h0, not_lt.mpr h1]
  · intro q h
    simp [clampPipeline, GoFloat.ltZero, GoFloat.gtOne, GoFloat.isNaN, h,
      show ¬ (1 : ℚ) < 0 by norm_num]
  · intro q h
    have h2 : ¬ q < 0 := not_lt.mpr (le_of_lt (lt_trans one_pos h))
    simp [clampPipeline, GoFloat.ltZero, GoFloat.gtOne, GoFloat.isNaN, h, h2]
  · intro text line col u
    have := horder (parseFloatModel text)
    simp only [applyLeafClose, coercePriority, this]

/-- Witness for C2 at concrete inputs: `0.8` passes through, `-1`
clamps to `0`, `2` clamps to `1`. -/
theorem c2_priority_pipeline_witness :
    clampPipeline (.ok (.finite (mkRat 4 5))) = .finite (mkRat 4 5) ∧
    clampPipeline (.ok (.finite (mkRat (-1) 1))) = .finite 0 ∧
    clampPipeline (.ok (.finite (mkRat 2 1))) = .finite 1 :=
  ⟨c2_priority_pipeline.2.2.1 (mkRat 4 5) (by decide) (by decide),
   c2_priority_pipeline.2.2.2.1 (mkRat (-1) 1) (by decide),
   c2_priority_pipeline.2.2.2.2.1 (mkRat 2 1) (by decide)⟩

/-- C7: the inline changefreq and priority coercions of the streaming
scanner agree with the fallback path's per-field decoders
(`Frequency.UnmarshalXML`, `BoundedFloat64.UnmarshalXML`) on every
text. -/
theorem c7_inline_coercions_match_fallback_decoders :
    ∀ s : List Nat,
      coerceChangefreq s = frequencyUnmarshalXML s ∧
      coercePriority s = boundedFloat64UnmarshalXML s := by
  intro s
  refine ⟨rfl, ?_⟩
  show clampPipeline (parseFloatModel s) = boundedFloat64UnmarshalXML s
  unfold clampPipeline boundedFloat64UnmarshalXML
  cases parseFloatModel s <;> rfl

/-- C5: the changefreq coercion yields the matching enumeration value
exactly on the seven case-sensitive tokens and `UKNOWN` on everything
else (including empty text); the scanner stores exactly this value;
and a url element with no changefreq yields the same record as one
with an unrecognized token. -/
theorem c5_changefreq_exact_tokens :
    (∀ f : Frequency, f ≠ .uknown → coerceChangefreq (bytesOf f.token) = f) ∧
    (∀ s : List Nat, s ∉ knownFreqTokens → coerceChangefreq s = .uknown) ∧
    coerceChangefreq [] = .uknown ∧
    (∀ (text : List Nat) (line : Nat) (col : Int) (u : URL),
      applyLeafClose .changefreq text line col u =
        .ok { u with Changefreq := coerceChangefreq text }) ∧
    ParseReaderOptimized [chunkOfString "<urlset><url><loc>x</loc></url></urlset>          "] =
      ParseReaderOptimized
        [chunkOfString
          "<urlset><url><loc>x</loc><changefreq>foobar</changefreq></url></urlset>                    "] ∧
    ParseReaderOptimized [chunkOfString "<urlset><url><loc>x</loc></url></urlset>          "] =
      .ok { Maps := [],
            URLs := [{ Loc := [120], Lastmod := zeroTime, Changefreq := .uknown,
                       Priority := none }] } := by
  refine ⟨?_, ?_, by decide, ?_, by decide, by decide⟩
  · intro f hf
    cases f <;> simp_all <;> decide
  · intro s h
    simp only [knownFreqTokens, List.mem_cons, List.not_mem_nil, or_false, not_or] at h
    obtain ⟨h1, h2, h3, h4, h5, h6, h7⟩ := h
    simp [coerceChangefreq, h1, h2, h3, h4, h5, h6, h7]
  · intro text line col u
    simp [applyLeafClose]

/-- Witness for C5 at concrete inputs: `daily` round-trips,
`foobar` is rejected to `UKNOWN`. -/
theorem c5_changefreq_exact_tokens_witness :
    coerceChangefreq (bytesOf Frequency.daily.token) = .daily ∧
    coerceChangefreq (bytesOf "foobar") = .uknown :=
  ⟨c5_changefreq_exact_tokens.1 .daily (by decide),
   c5_changefreq_exact_tokens.2.1 (bytesOf "foobar") (by decide)⟩

/-- C1: the claim that every split of the byte stream parses like a
single read fails on the code.  The well-formed document
`<urlset></urlset>` parses in one read, but delivered in one-byte
chunks the scanner classifies the first tag against stale
zero-initialized buffer bytes (the early-refill guard `i > n*75/100`
can never fire at `i = 0`) and reports a fatal unexpected-tag error. -/
theorem c1_chunk_splitting_changes_result :
    ParseReaderOptimized [chunkOfString "<urlset></urlset>"] =
      .ok { Maps := [], URLs := [] } ∧
    ParseReaderOptimized (oneByteChunks "<urlset></urlset>") =
      .fatal ⟨1, 1, .tag⟩ :=
  ⟨by decide, by decide⟩

/-- C3 counterexample: end-of-stream inside an incomplete element
(`<url>` never closed) is NOT a fatal truncation error: the parse
returns success with the records accumulated so far. -/
theorem c3_counterexample_eof_mid_element_succeeds :
    ParseReaderOptimized [chunkOfString "<urlset><url>"] =
      .ok { Maps := [], URLs := [] } := by decide

/-- C3 amended: at end-of-stream (here: an exhausted reader), whenever
the scan of the final window ends without a fatal error, the parse
returns success with the accumulated URL records — regardless of the
scanner's state `st'` (which may be inside an incomplete element) and
regardless of a pending preserved suffix (`rp`).  No truncation check
exists. -/
theorem c3_eof_returns_accumulated_records (buf : Buffer) (n : Nat)
    (st st' : ScanState) (rp : Option Nat) (fuelO : Nat)
    (h : scanStep buf n (n + 1) 0 st = .ok (st', rp)) :
    drive buf n st (fuelO + 1) [] = .ok st'.urls := by
  unfold drive
  rw [h]
  cases rp <;> simp [readStep]

/-- Witness for C3 at a concrete state and empty stream. -/
theorem c3_eof_returns_accumulated_records_witness :
    drive ⟨fun _ => 0⟩ 0 {} 1 [] = .ok [] :=
  c3_eof_returns_accumulated_records ⟨fun _ => 0⟩ 0 {} {} none 0 (by decide)

/-- C4 counterexample: `2024-01-02T5:04Z` does not match the claimed
fixed pattern (its hour has one digit, not two), yet the parse
succeeds: Go's layout `2006-01-02T15:04Z` parses the hour with a
non-fixed numeric field accepting one or two digits. -/
theorem c4_counterexample_one_digit_hour_accepted :
    ParseReaderOptimized
        [chunkOfString "<urlset><url><lastmod>2024-01-02T5:04Z</lastmod></url></urlset>"] =
      .ok { Maps := [],
            URLs := [{ Loc := [], Lastmod := ⟨2024, 1, 2, 5, 4⟩, Changefreq := .uknown,
                       Priority := none }] } := by decide

/-- C4 amended: lastmod text that `time.Parse` rejects under the fixed
layout (one-or-two-digit hour allowed) aborts the parse fatally with no
partial result, and valid text is stored; by contrast the priority and
changefreq closes never produce an error, whatever their text.  The
end-to-end scenario `<lastmod>not-a-date</lastmod>` is fatal. -/
theorem c4_malformed_lastmod_is_fatal :
    (∀ (text : List Nat) (line : Nat) (col : Int) (u : URL),
        timeParseModel text = none →
        applyLeafClose .lastmod text line col u = .fatal ⟨line, col, .lastmodVal text⟩) ∧
    (∀ (text : List Nat) (line : Nat) (col : Int) (u : URL) (t : Timestamp),
        timeParseModel text = some t →
        applyLeafClose .lastmod text line col u = .ok { u with Lastmod := t }) ∧
    (∀ (text : List Nat) (line : Nat) (col : Int) (u : URL),
        ∃ u', applyLeafClose .priority text line col u = .ok u') ∧
    (∀ (text : List Nat) (line : Nat) (col : Int) (u : URL),
        ∃ u', applyLeafClose .changefreq text line col u = .ok u') ∧
    ParseReaderOptimized
        [chunkOfString "<urlset><url><lastmod>not-a-date</lastmod></url></urlset>"] =
      .fatal ⟨1, 4, .lastmodVal (bytesOf "not-a-date")⟩ := by
  refine ⟨?_, ?_, ?_, ?_, by decide⟩
  · intro text line col u h
    simp [applyLeafClose, h]
  · intro text line col u t h
    simp [applyLeafClose, h]
  · intro text line col u
    exact ⟨_, rfl⟩
  · intro text line col u
    exact ⟨_, rfl⟩

/-- Witness for C4 at the concrete rejected text `not-a-date`. -/
theorem c4_malformed_lastmod_is_fatal_witness :
    applyLeafClose .lastmod (bytesOf "not-a-date") 1 4 {} =
      .fatal ⟨1, 4, .lastmodVal (bytesOf "not-a-date")⟩ :=
  c4_malformed_lastmod_is_fatal.1 (bytesOf "not-a-date") 1 4 {} (by decide)

/-- C6: leaf elements inside `<url>` are accepted in any order and may
repeat, silently, with the record field taking the last occurrence:
the canonical order and the fully reversed order produce the same
record; duplicated `loc`, `changefreq` and `priority` keep the last
value; and applying any leaf close twice equals applying only the
second one (for `lastmod`, provided the first text parses). -/
theorem c6_leaf_order_free_and_last_write_wins :
    ParseReaderOptimized
        [chunkOfString
          "<urlset><url><loc>a</loc><lastmod>2024-01-02T15:04Z</lastmod><changefreq>daily</changefreq><priority>0.8</priority></url></urlset>                                        "] =
      .ok { Maps := [],
            URLs := [{ Loc := [97], Lastmod := ⟨2024, 1, 2, 15, 4⟩, Changefreq := .daily,
                       Priority := some (.finite (mkRat 4 5)) }] } ∧
    ParseReaderOptimized
        [chunkOfString
          "<urlset><url><priority>0.8</priority><changefreq>daily</changefreq><lastmod>2024-01-02T15:04Z</lastmod><loc>a</loc></url></urlset>                                        "] =
      .ok { Maps := [],
            URLs := [{ Loc := [97], Lastmod := ⟨2024, 1, 2, 15, 4⟩, Changefreq := .daily,
                       Priority := some (.finite (mkRat 4 5)) }] } ∧
    ParseReaderOptimized
        [chunkOfString
          "<urlset><url><loc>a</loc><loc>b</loc><changefreq>daily</changefreq><changefreq>never</changefreq><priority>0.2</priority><priority>0.9</priority></url></urlset>                                                            "] =
      .ok { Maps := [],
            URLs := [{ Loc := [98], Lastmod := zeroTime, Changefreq := .never,
                       Priority := some (.finite (mkRat 9 10)) }] } ∧
    (∀ (u : URL) (t1 t2 : List Nat) (l1 l2 : Nat) (c1 c2 : Int),
      (applyLeafClose .loc t1 l1 c1 u).bind (applyLeafClose .loc t2 l2 c2) =
        applyLeafClose .loc t2 l2 c2 u) ∧
    (∀ (u : URL) (t1 t2 : List Nat) (l1 l2 : Nat) (c1 c2 : Int),
      (applyLeafClose .changefreq t1 l1 c1 u).bind (applyLeafClose .changefreq t2 l2 c2) =
        applyLeafClose .changefreq t2 l2 c2 u) ∧
    (∀ (u : URL) (t1 t2 : List Nat) (l1 l2 : Nat) (c1 c2 : Int),
      (applyLeafClose .priority t1 l1 c1 u).bind (applyLeafClose .priority t2 l2 c2) =
        applyLeafClose .priority t2 l2 c2 u) ∧
    (∀ (u : URL) (t1 t2 : List Nat) (l1 l2 : Nat) (c1 c2 : Int) (ts : Timestamp),
      timeParseModel t1 = some ts →
      (applyLeafClose .lastmod t1 l1 c1 u).bind (applyLeafClose .lastmod t2 l2 c2) =
        applyLeafClose .lastmod t2 l2 c2 u) := by
  refine ⟨by decide, by decide, by decide, ?_, ?_, ?_, ?_⟩
  · intro u t1 t2 l1 l2 c1 c2
    simp [applyLeafClose, Res.bind]
  · intro u t1 t2 l1 l2 c1 c2
    simp [applyLeafClose, Res.bind]
  · intro u t1 t2 l1 l2 c1 c2
    simp [applyLeafClose, Res.bind]
  · intro u t1 t2 l1 l2 c1 c2 ts h
    simp only [applyLeafClose, h, Res.bind]

/-- Witness for C6: a second valid `lastmod` overwrites the first. -/
theorem c6_leaf_order_free_and_last_write_wins_witness :
    (applyLeafClose .lastmod (bytesOf "2024-01-02T15:04Z") 1 1 {}).bind
        (applyLeafClose .lastmod (bytesOf "2025-02-03T16:05Z") 1 1) =
      applyLeafClose .lastmod (bytesOf "2025-02-03T16:05Z") 1 1 {} :=
  c6_leaf_order_free_and_last_write_wins.2.2.2.2.2.2
    {} (bytesOf "2024-01-02T15:04Z") (bytesOf "2025-02-03T16:05Z") 1 1 1 1
    ⟨2024, 1, 2, 15, 4⟩ (by decide)

/-- C8 counterexample: the column counter does not advance on every
scanned byte.  In the input consisting of a space followed by `x`, the
offending `x` is the second byte of line 1, so under the claim's
counting its column is 2; the code reports column 1 (whitespace other
than newline skips the `currentCharacter++`). -/
theorem c8_counterexample_column_skips_whitespace :
    ParseReaderOptimized [chunkOfString " x"] = .fatal ⟨1, 1, .chr 120⟩ ∧
    ParseReaderOptimized [chunkOfString " x"] ≠ .fatal ⟨1, 2, .chr 120⟩ :=
  ⟨by decide, by decide⟩

/-- C8 amended: fatal scanner errors report a 1-based line and column;
a newline increments the line and resets the column to 1; the column
advances once per non-whitespace scan step (an entire consumed tag
advances it by one, and space/tab/CR do not advance it); and both
counters persist unchanged across buffer refills: the split stream
reports the same position as the unsplit one. -/
theorem c8_line_column_reporting :
    ParseReaderOptimized [chunkOfString "<urlset>\nz"] = .fatal ⟨2, 1, .chr 122⟩ ∧
    ParseReaderOptimized [chunkOfString "\t\rx"] = .fatal ⟨1, 1, .chr 120⟩ ∧
    ParseReaderOptimized [chunkOfString "<urlset>a"] = .fatal ⟨1, 2, .chr 97⟩ ∧
    ParseReaderOptimized [chunkOfString "<urlset>\n", chunkOfString "z"] =
      ParseReaderOptimized [chunkOfString "<urlset>\nz"] :=
  ⟨by decide, by decide, by decide, by decide⟩

/-- C9 counterexample: a document whose root element is `sitemapindex`
CAN be parsed "successfully" by the optimized path: when the root tag
opens past 75% of the first window, the early-refill guard preserves
it as an unconsumed suffix, the next read hits end-of-stream, and the
function returns an empty success instead of an error. -/
theorem c9_counterexample_sitemapindex_empty_success :
    ParseReaderOptimized
        [chunkOfString
          "                                                                                                    <sitemapindex></sitemapindex>"] =
      .ok { Maps := [], URLs := [] } := by decide

/-- C9 amended: every successful result of the optimized path lies in
the URL-set branch — its `Maps` sequence is empty, whatever the input
stream — and a `sitemapindex` root tag that the scanner actually
classifies is a fatal error; but a `sitemapindex` document can still
yield an empty success via the end-of-stream path above. -/
theorem c9_success_lies_in_urlset_branch :
    (∀ (chunks : List Chunk) (r : SiteMapOrURLSet),
        ParseReaderOptimized chunks = .ok r → r.Maps = []) ∧
    ParseReaderOptimized [chunkOfString "<sitemapindex></sitemapindex>"] =
      .fatal ⟨1, 1, .tag⟩ := by
  constructor
  · intro chunks r h
    unfold ParseReaderOptimized at h
    split at h
    · cases h; rfl
    · split at h
      · cases h; rfl
      · cases h
      · cases h
  · decide

/-- Witness for C9 at the empty stream. -/
theorem c9_success_lies_in_urlset_branch_witness :
    ({ Maps := [], URLs := [] } : SiteMapOrURLSet).Maps = [] :=
  c9_success_lies_in_urlset_branch.1 [] { Maps := [], URLs := [] } (by decide)

/-! ## C10: reachability of out-of-range buffer accesses

Two single-read inputs that fill the whole 4096-byte window.  In the
first, the last delivered byte is the `<` of a tag opening at position
4095: the early-refill guard itself evaluates `bs[i+1] != '/'`, an
access at physical index 4096 — in Go an out-of-bounds panic.  In the
second, a `</loc>` closing tag starts at position 4093: its next byte
is `/`, so the guard is skipped entirely, and the fixed-offset
comparison slices `bs[4094:4099]`, past the physical buffer.  The
4096-step scans are composed from lemmas with symbolic fuel so that
each proof step only ever reduces a bounded number of scanner
iterations. -/

/-- First crash input: `<urlset><url><loc>` then 4077 content bytes,
with a lone `<` as the final byte of the window. -/
def c10guardBytes : Nat → Nat := fun j =>
  if j < 18 then (bytesOf "<urlset><url><loc>").getD j 0
  else if j < 4095 then 97
  else 60

/-- The first crash input as one full-window read. -/
def c10guardChunk : Chunk := ⟨4096, c10guardBytes⟩

/-- Second crash input: `<urlset><url><loc>` then 4075 content bytes,
then `</l` as the final three bytes of the window. -/
def c10closeBytes : Nat → Nat := fun j =>
  if j < 18 then (bytesOf "<urlset><url><loc>").getD j 0
  else if j < 4093 then 97
  else if j = 4093 then 60
  else if j = 4094 then 47
  else 108

/-- The second crash input as one full-window read. -/
def c10closeChunk : Chunk := ⟨4096, c10closeBytes⟩

/-- The window after the first read of the first crash input. -/
def bufA : Buffer := Buffer.write ⟨fun _ => 0⟩ 0 4096 c10guardBytes

/-- The window after the first read of the second crash input. -/
def bufB : Buffer := Buffer.write ⟨fun _ => 0⟩ 0 4096 c10closeBytes

/-- Scanner state after consuming `<urlset><url><loc>` (18 bytes,
three tag steps, so the column has advanced three times). -/
def st18 : ScanState :=
  { currentParseLevel := .loc, contentStart := 18, urls := [], currentURL := some {},
    currentLine := 1, currentCharacter := 4 }

/-- A run of `k` content bytes `97` inside the `loc` leaf advances the
cursor and the column by `k`; stated with symbolic fuel so that it
composes without deep kernel reduction. -/
theorem scanStep_content_run (buf : Buffer) (n : Nat) :
    ∀ (k fuel i : Nat) (st : ScanState),
      st.currentParseLevel = .loc →
      i + k ≤ n →
      n ≤ bufferSize →
      (∀ j, j < k → buf.data (i + j) = 97) →
      scanStep buf n (fuel + k) i st =
        scanStep buf n fuel (i + k)
          { st with currentCharacter := st.currentCharacter + k } := by
  intro k
  induction k with
  | zero => intro fuel i st _ _ _ _; rfl
  | succ k ih =>
    intro fuel i st hlvl hik hn hbytes
    have hi_n : i < n := by omega
    have hi_b : i < bufferSize := by
      have := hik.trans hn; omega
    have hb0 : buf.data i = 97 := by simpa using hbytes 0 (by omega)
    calc scanStep buf n (fuel + (k + 1)) i st
        = scanStep buf n (fuel + k) (i + 1)
            { st with currentCharacter := st.currentCharacter + 1 } := by
          rw [Nat.add_succ]
          simp [scanStep, Buffer.read, Res.bind, hi_n, hi_b, hb0, hlvl]
      _ = scanStep buf n fuel ((i + 1) + k)
            { { st with currentCharacter := st.currentCharacter + 1 } with
              currentCharacter :=
                ({ st with currentCharacter := st.currentCharacter + 1 }).currentCharacter
                  + k } :=
          ih fuel (i + 1) _ (by simp [hlvl]) (by omega) hn (fun j hj => by
            simpa [show i + 1 + j = i + (j + 1) from by omega]
              using hbytes (j + 1) (by omega))
      _ = scanStep buf n fuel (i + (k + 1))
            { st with currentCharacter := st.currentCharacter + (k + 1) } := by
          congr 1
          · omega
          · simp
            omega

/-- One outer-loop step with an exhausted reader: if the scan of the
final window crashes, so does the whole drive. -/
theorem drive_scan_crash (buf : Buffer) (n : Nat) (st : ScanState) (fuelO : Nat)
    (h : scanStep buf n (n + 1) 0 st = .crash) :
    drive buf n st (fuelO + 1) [] = .crash := by
  unfold drive
  rw [h]

/-- Evaluating `ParseReaderOptimized` on a single chunk that fits the window:
the first read delivers it whole and the loop runs on it. -/
theorem parse_one_chunk (L : Nat) (f : Nat → Nat) (h : L ≤ bufferSize) :
    ParseReaderOptimized [⟨L, f⟩] =
      match drive (Buffer.write ⟨fun _ => 0⟩ 0 L f) L {} (L + 1 + 1) [] with
      | .ok us => .ok { Maps := [], URLs := us }
      | .fatal e => .fatal e
      | .crash => .crash := by
  unfold ParseReaderOptimized readerFuel
  simp [readStep, h]

/-- Three tag steps consume `<urlset><url><loc>` on the first input. -/
theorem scanA_tagSteps (fuel : Nat) :
    scanStep bufA 4096 (fuel + 3) 0 {} = scanStep bufA 4096 fuel 18 st18 := rfl

/-- Three tag steps consume `<urlset><url><loc>` on the second input. -/
theorem scanB_tagSteps (fuel : Nat) :
    scanStep bufB 4096 (fuel + 3) 0 {} = scanStep bufB 4096 fuel 18 st18 := rfl

/-- At position 4095, the `<` triggers the early-refill guard, whose
`bs[i+1]` access reads physical index 4096: out of range. -/
theorem scanA_guard_crash (fuel : Nat) :
    scanStep bufA 4096 (fuel + 1) 4095
      { st18 with currentCharacter := st18.currentCharacter + 4077 } = .crash := rfl

/-- At position 4093, `</l` begins a closing tag: the guard is skipped
because the next byte is `/`, and the close-tag comparison slices
`bs[4094:4099]`, past the physical buffer: out of range. -/
theorem scanB_close_crash (fuel : Nat) :
    scanStep bufB 4096 (fuel + 1) 4093
      { st18 with currentCharacter := st18.currentCharacter + 4075 } = .crash := rfl

/-- C10: the scanner's fixed-offset tag accesses are unguarded; under
the total embedding, where buffer reads and slices return a `crash`
outcome when out of physical range, that branch is reachable: the
early-refill guard's own `bs[i+1]` read crashes on the first input,
and a closing tag — exempt from the guard — crashes slicing
`bs[i+1:i+6]` on the second. -/
theorem c10_out_of_range_reads_reachable :
    ParseReaderOptimized [c10guardChunk] = .crash ∧
    ParseReaderOptimized [c10closeChunk] = .crash := by
  constructor
  · have hbytes : ∀ j, j < 4077 → bufA.data (18 + j) = 97 := by
      intro j hj
      have h1 : 18 + j < 0 + 4096 := by omega
      have h2 : ¬ 18 + j < 18 := by omega
      have h3 : 18 + j < 4095 := by omega
      simp [bufA, Buffer.write, c10guardBytes, h1, h2, h3]
    have hscan : scanStep bufA 4096 (4096 + 1) 0 {} = .crash := by
      calc scanStep bufA 4096 (4096 + 1) 0 {}
          = scanStep bufA 4096 (4094 + 3) 0 {} := by norm_num
        _ = scanStep bufA 4096 4094 18 st18 := scanA_tagSteps 4094
        _ = scanStep bufA 4096 (17 + 4077) 18 st18 := by norm_num
        _ = scanStep bufA 4096 17 (18 + 4077)
              { st18 with currentCharacter := st18.currentCharacter + 4077 } :=
            scanStep_content_run bufA 4096 4077 17 18 st18 rfl (by norm_num)
              (by decide) hbytes
        _ = scanStep bufA 4096 (16 + 1) 4095
              { st18 with currentCharacter := st18.currentCharacter + 4077 } := by
            norm_num
        _ = .crash := scanA_guard_crash 16
    have hdrive : drive bufA 4096 {} (4096 + 1 + 1) [] = .crash :=
      drive_scan_crash bufA 4096 {} (4096 + 1) hscan
    rw [show ParseReaderOptimized [c10guardChunk] =
          ParseReaderOptimized [⟨4096, c10guardBytes⟩] from rfl,
        parse_one_chunk 4096 c10guardBytes (by decide),
        show Buffer.write ⟨fun _ => 0⟩ 0 4096 c10guardBytes = bufA from rfl,
        hdrive]
  · have hbytes : ∀ j, j < 4075 → bufB.data (18 + j) = 97 := by
      intro j hj
      have h1 : 18 + j < 0 + 4096 := by omega
      have h2 : ¬ 18 + j < 18 := by omega
      have h3 : 18 + j < 4093 := by omega
      simp [bufB, Buffer.write, c10closeBytes, h1, h2, h3]
    have hscan : scanStep bufB 4096 (4096 + 1) 0 {} = .crash := by
      calc scanStep bufB 4096 (4096 + 1) 0 {}
          = scanStep bufB 4096 (4094 + 3) 0 {} := by norm_num
        _ = scanStep bufB 4096 4094 18 st18 := scanB_tagSteps 4094
        _ = scanStep bufB 4096 (19 + 4075) 18 st18 := by norm_num
        _ = scanStep bufB 4096 19 (18 + 4075)
              { st18 with currentCharacter := st18.currentCharacter + 4075 } :=
            scanStep_content_run bufB 4096 4075 19 18 st18 rfl (by norm_num)
              (by decide) hbytes
        _ = scanStep bufB 4096 (18 + 1) 4093
              { st18 with currentCharacter := st18.currentCharacter + 4075 } := by
            norm_num
        _ = .crash := scanB_close_crash 18
    have hdrive : drive bufB 4096 {} (4096 + 1 + 1) [] = .crash :=
      drive_scan_crash bufB 4096 {} (4096 + 1) hscan
    rw [show ParseReaderOptimized [c10closeChunk] =
          ParseReaderOptimized [⟨4096, c10closeBytes⟩] from rfl,
        parse_one_chunk 4096 c10closeBytes (by decide),
        show Buffer.write ⟨fun _ => 0⟩ 0 4096 c10closeBytes = bufB from rfl,
        hdrive]

end GoSitemap

